import Mathlib

/-!
Verification development for the `lsp-python-types` LSP client harness.

Shallow embedding of the core transport (`lsp_types/session.py`: framing,
stdout reader dispatch, request multiplexer, shutdown) and of the Pyrefly
session layer (`lsp_types/pyrefly/session.py`: document versioning,
diagnostics pull, TOML config writer).

Byte streams are modelled as `List Nat` (one `Nat` per byte).  JSON values
are modelled by the inductive `Json`; string payloads inside JSON values are
carried as raw UTF-8 byte lists.  Machine integers do not overflow in the
Python source, so `Nat`/`Int` are used directly.  Two modelling notes:
JSON numbers are modelled as integers (no payload in this repository uses
floats), and `\uXXXX` escapes encode the code point directly (surrogate
pairing is not modelled; no input here uses it).
-/

namespace LspModel

/-- Bytes of an ASCII string, one `Nat` per character.  All string constants
in the modelled code are ASCII, where UTF-8 bytes coincide with code points. -/
def asciiBytes (s : String) : List Nat :=
  s.data.map Char.toNat

/-- JSON values as produced by Python's `json.loads`.  Object entries keep
insertion order, mirroring Python dicts. -/
inductive Json where
  | null
  | bool (b : Bool)
  | num (n : Int)
  | str (s : List Nat)
  | arr (xs : List Json)
  | obj (kvs : List (List Nat × Json))

/-- Escaping of a single byte inside a JSON string, as done by
`json.dumps(..., ensure_ascii=False)`: quote, backslash and control
characters are escaped, everything else (including UTF-8 continuation
bytes) passes through raw. -/
def escapeByte (b : Nat) : List Nat :=
  if b = 34 then [92, 34]
  else if b = 92 then [92, 92]
  else if b = 10 then [92, 110]
  else if b = 9 then [92, 116]
  else if b = 13 then [92, 114]
  else if b = 8 then [92, 98]
  else if b = 12 then [92, 102]
  else if b < 32 then
    [92, 117, 48, 48, (if b / 16 < 10 then 48 + b / 16 else 87 + b / 16),
      (if b % 16 < 10 then 48 + b % 16 else 87 + b % 16)]
  else [b]

mutual

/-- Serialization mirroring `json.dumps(payload, check_circular=False,
ensure_ascii=False, separators=(",", ":")).encode("utf-8")` from
`LSPSession._send_payload`. -/
def dumpsB : Json → List Nat
  | .null => asciiBytes "null"
  | .bool true => asciiBytes "true"
  | .bool false => asciiBytes "false"
  | .num n => asciiBytes (toString n)
  | .str s => [34] ++ s.flatMap escapeByte ++ [34]
  | .arr xs => [91] ++ dumpsArr xs ++ [93]
  | .obj kvs => [123] ++ dumpsObj kvs ++ [125]

/-- Array elements joined with the `","` item separator. -/
def dumpsArr : List Json → List Nat
  | [] => []
  | [x] => dumpsB x
  | x :: y :: xs => dumpsB x ++ [44] ++ dumpsArr (y :: xs)

/-- Object entries `"key":value` joined with the `","` item separator. -/
def dumpsObj : List (List Nat × Json) → List Nat
  | [] => []
  | [kv] => [34] ++ kv.1.flatMap escapeByte ++ [34, 58] ++ dumpsB kv.2
  | kv :: kv' :: kvs =>
      [34] ++ kv.1.flatMap escapeByte ++ [34, 58] ++ dumpsB kv.2 ++ [44]
        ++ dumpsObj (kv' :: kvs)

end

/-- JSON whitespace bytes (space, tab, LF, CR), as skipped by `json.loads`. -/
def isJsonWs (b : Nat) : Bool :=
  b = 32 || b = 9 || b = 10 || b = 13

/-- Python `bytes.strip()` whitespace (additionally VT and FF). -/
def isPyWs (b : Nat) : Bool :=
  b = 32 || b = 9 || b = 10 || b = 13 || b = 11 || b = 12

/-- Python `bytes.strip()`: drop leading and trailing whitespace bytes. -/
def stripB (s : List Nat) : List Nat :=
  ((s.dropWhile isPyWs).reverse.dropWhile isPyWs).reverse

/-- Decimal digit test. -/
def isDigitB (b : Nat) : Bool :=
  48 ≤ b && b ≤ 57

/-- Value of a nonempty all-digit byte run, `none` otherwise. -/
def digitsVal : List Nat → Option Nat
  | [] => none
  | [b] => if isDigitB b then some (b - 48) else none
  | b :: c :: rest =>
    if isDigitB b then
      match digitsVal (c :: rest) with
      | some v => some ((b - 48) * 10 ^ (c :: rest).length + v)
      | none => none
    else none

/-- Python `int(bytes)` after stripping: optional sign then decimal digits
(`ValueError`, i.e. `none`, otherwise; digit-group underscores are not
modelled as no input here uses them). -/
def parsePyInt (s : List Nat) : Option Int :=
  match stripB s with
  | 43 :: rest => (digitsVal rest).map Int.ofNat
  | 45 :: rest => (digitsVal rest).map fun n => -(n : Int)
  | rest => (digitsVal rest).map Int.ofNat

/-- Hex digit value for `\uXXXX` escapes. -/
def hexVal (b : Nat) : Option Nat :=
  if 48 ≤ b && b ≤ 57 then some (b - 48)
  else if 97 ≤ b && b ≤ 102 then some (b - 87)
  else if 65 ≤ b && b ≤ 70 then some (b - 55)
  else none

/-- UTF-8 encoding of a code point (used for `\uXXXX` escapes). -/
def utf8EncodeNat (c : Nat) : List Nat :=
  if c < 128 then [c]
  else if c < 2048 then [192 + c / 64, 128 + c % 64]
  else if c < 65536 then [224 + c / 4096, 128 + c / 64 % 64, 128 + c % 64]
  else [240 + c / 262144, 128 + c / 4096 % 64, 128 + c / 64 % 64, 128 + c % 64]

/-- A JSON integer literal must not continue with a fraction or exponent
(floats are outside this model) and must not have a redundant leading zero. -/
def jsonNumOk (ds rest : List Nat) : Bool :=
  (match rest with
   | 46 :: _ => false
   | 101 :: _ => false
   | 69 :: _ => false
   | _ => true) &&
  (match ds with
   | 48 :: _ :: _ => false
   | _ => true)

mutual

/-- Fuel-driven recursive-descent parser mirroring `json.loads`.  Returns the
parsed value and the unconsumed rest, or `none` on a JSON syntax error.  The
fuel argument is an artifact of the embedding; every wrapper call supplies
more fuel than the input length, which is sufficient since every recursive
step consumes at least one byte. -/
def parseJsonF : Nat → List Nat → Option (Json × List Nat)
  | 0, _ => none
  | fuel + 1, s =>
    match s.dropWhile isJsonWs with
    | [] => none
    | c :: rest =>
      if c = 110 then
        match rest with
        | 117 :: 108 :: 108 :: r => some (.null, r)
        | _ => none
      else if c = 116 then
        match rest with
        | 114 :: 117 :: 101 :: r => some (.bool true, r)
        | _ => none
      else if c = 102 then
        match rest with
        | 97 :: 108 :: 115 :: 101 :: r => some (.bool false, r)
        | _ => none
      else if c = 34 then
        match parseStrF fuel rest with
        | some (bs, r) => some (.str bs, r)
        | none => none
      else if c = 45 then
        match rest.span isDigitB with
        | (ds, r) =>
          match digitsVal ds with
          | some v =>
            if jsonNumOk ds r then some (.num (-(v : Int)), r) else none
          | none => none
      else if isDigitB c then
        match (c :: rest).span isDigitB with
        | (ds, r) =>
          match digitsVal ds with
          | some v => if jsonNumOk ds r then some (.num (v : Int), r) else none
          | none => none
      else if c = 91 then
        match rest.dropWhile isJsonWs with
        | 93 :: r => some (.arr [], r)
        | _ => match parseArrF fuel rest [] with
               | some (xs, r) => some (.arr xs, r)
               | none => none
      else if c = 123 then
        match rest.dropWhile isJsonWs with
        | 125 :: r => some (.obj [], r)
        | _ => match parseObjF fuel rest [] with
               | some (kvs, r) => some (.obj kvs, r)
               | none => none
      else none

/-- String contents after the opening quote: raw bytes until an unescaped
quote; raw control bytes are a syntax error (strict mode). -/
def parseStrF : Nat → List Nat → Option (List Nat × List Nat)
  | 0, _ => none
  | fuel + 1, s =>
    match s with
    | [] => none
    | 34 :: r => some ([], r)
    | 92 :: e :: r =>
      let cont := fun (pre : List Nat) (r' : List Nat) =>
        match parseStrF fuel r' with
        | some (bs, r'') => some (pre ++ bs, r'')
        | none => none
      if e = 34 then cont [34] r
      else if e = 92 then cont [92] r
      else if e = 47 then cont [47] r
      else if e = 98 then cont [8] r
      else if e = 102 then cont [12] r
      else if e = 110 then cont [10] r
      else if e = 114 then cont [13] r
      else if e = 116 then cont [9] r
      else if e = 117 then
        match r with
        | h1 :: h2 :: h3 :: h4 :: r' =>
          match hexVal h1, hexVal h2, hexVal h3, hexVal h4 with
          | some a, some b, some c, some d =>
              cont (utf8EncodeNat (a * 4096 + b * 256 + c * 16 + d)) r'
          | _, _, _, _ => none
        | _ => none
      else none
    | b :: r =>
      if b < 32 then none
      else
        match parseStrF fuel r with
        | some (bs, r') => some (b :: bs, r')
        | none => none

/-- Array items after the opening bracket (nonempty case). -/
def parseArrF : Nat → List Nat → List Json → Option (List Json × List Nat)
  | 0, _, _ => none
  | fuel + 1, s, acc =>
    match parseJsonF fuel s with
    | none => none
    | some (v, r) =>
      match r.dropWhile isJsonWs with
      | 44 :: r' => parseArrF fuel r' (acc ++ [v])
      | 93 :: r' => some (acc ++ [v], r')
      | _ => none

/-- Object entries after the opening brace (nonempty case). -/
def parseObjF : Nat → List Nat → List (List Nat × Json) →
    Option (List (List Nat × Json) × List Nat)
  | 0, _, _ => none
  | fuel + 1, s, acc =>
    match s.dropWhile isJsonWs with
    | 34 :: r =>
      match parseStrF fuel r with
      | none => none
      | some (k, r1) =>
        match r1.dropWhile isJsonWs with
        | 58 :: r2 =>
          match parseJsonF fuel r2 with
          | none => none
          | some (v, r3) =>
            match r3.dropWhile isJsonWs with
            | 44 :: r4 => parseObjF fuel r4 (acc ++ [(k, v)])
            | 125 :: r4 => some (acc ++ [(k, v)], r4)
            | _ => none
        | _ => none
    | _ => none

end

/-- `json.loads(bs)`: parse one value, allowing only whitespace around it. -/
def loads (bs : List Nat) : Option Json :=
  match parseJsonF (bs.length + 1) bs with
  | some (v, rest) => if rest.all isJsonWs then some v else none
  | none => none

/-! ## Framing: `LSPSession._send_payload` (encode) and `_read_stdout` (decode) -/

/-- `asyncio.StreamReader.readline()`: the line up to and including the first
LF, or the whole remainder at EOF.  Returns the line and the rest. -/
def readLineB : List Nat → List Nat × List Nat
  | [] => ([], [])
  | b :: rest =>
    if b = 10 then ([10], rest)
    else
      let p := readLineB rest
      (b :: p.1, p.2)

/-- Python truthiness of `line.strip()`: a line is blank when it consists of
whitespace bytes only. -/
def isBlankB (l : List Nat) : Bool :=
  l.all isPyWs

/-- `line.split(b":")[1]`: the segment strictly between the first colon and
the following colon or the end of the line. -/
def afterFirstColon (l : List Nat) : List Nat :=
  ((l.dropWhile fun b => b ≠ 58).drop 1).takeWhile fun b => b ≠ 58

/-- `pat` is byte-for-byte the start of `s` (`bytes.startswith`). -/
def leadsWith : List Nat → List Nat → Bool
  | [], _ => true
  | _ :: _, [] => false
  | p :: ps, b :: bs => p == b && leadsWith ps bs

/-- The header token `b"Content-Length: "` tested by the stdout reader. -/
def clBytes : List Nat := asciiBytes "Content-Length: "

/-- One round of the inner header-skipping loop of `_read_stdout`
(`while line and line.strip(): line = readline()`): consume lines until a
blank line or EOF, returning the remaining stream.  Fuel exceeds the stream
length in every wrapper call, so exhaustion is unreachable. -/
def skipHeadersF : Nat → List Nat → List Nat
  | 0, s => s
  | _ + 1, [] => []
  | fuel + 1, b :: rest =>
    let p := readLineB (b :: rest)
    if isBlankB p.1 then p.2 else skipHeadersF fuel p.2

/-- `skipHeadersF` with sufficient fuel. -/
def skipHeaders (s : List Nat) : List Nat :=
  skipHeadersF (s.length + 1) s

/-- Result of one pass of the stdout reader loop looking for a message:
either a decoded payload with the unconsumed rest of the stream, a clean
exit at EOF, or an exception (`ValueError` from `int`, `ValueError` /
`IncompleteReadError` from `readexactly`, or a JSON decode error) that the
reader's generic `except Exception` handler catches and logs before the
task exits. -/
inductive DecodeResult where
  | msg (j : Json) (rest : List Nat)
  | eof
  | err

/-- The frame-extraction loop of `LSPSession._read_stdout`: skip blank
lines; on a `Content-Length:` line parse the value (`int` may raise); a
zero or absent length is skipped (`if not content_length: continue`);
otherwise skip the remaining header lines until a blank line, read exactly
the declared number of body bytes (negative or overlong lengths raise) and
parse the stripped body as JSON.  Fuel exceeds the stream length in every
wrapper call. -/
def readMessageF : Nat → List Nat → DecodeResult
  | 0, _ => .eof
  | _ + 1, [] => .eof
  | fuel + 1, b :: rest0 =>
    let p := readLineB (b :: rest0)
    let line := p.1
    let rest := p.2
    if isBlankB line then readMessageF fuel rest
    else if leadsWith clBytes line then
      match parsePyInt (afterFirstColon line) with
      | none => .err
      | some cl =>
        if cl = 0 then readMessageF fuel rest
        else
          let rest2 := skipHeaders rest
          if cl < 0 then .err
          else if rest2.length < cl.toNat then .err
          else
            match loads (stripB (rest2.take cl.toNat)) with
            | some j => .msg j (rest2.drop cl.toNat)
            | none => .err
    else readMessageF fuel rest

/-- `readMessageF` with sufficient fuel. -/
def readMessage (s : List Nat) : DecodeResult :=
  readMessageF (s.length + 1) s

/-- `LSPSession._send_payload`: the bytes written for a payload — a
`Content-Length` header with the body's byte length, the fixed
`Content-Type` header, a blank line, then the compact JSON body. -/
def encodeFrame (payload : Json) : List Nat :=
  let body := dumpsB payload
  asciiBytes ("Content-Length: " ++ toString body.length ++ "\r\n")
    ++ asciiBytes "Content-Type: application/vscode-jsonrpc; charset=utf-8\r\n\r\n"
    ++ body

/-- `pat` occurs contiguously anywhere in `s`. -/
def hasSeq : List Nat → List Nat → Bool
  | [], pat => pat == []
  | b :: rest, pat => leadsWith pat (b :: rest) || hasSeq rest pat

/-- The lines of a byte stream, split exactly as the reader's repeated
`readline()` calls split it.  Fuel exceeds the stream length in every
wrapper call. -/
def streamLinesF : Nat → List Nat → List (List Nat)
  | 0, _ => []
  | _ + 1, [] => []
  | fuel + 1, b :: rest =>
    (readLineB (b :: rest)).1 :: streamLinesF fuel (readLineB (b :: rest)).2

/-- `streamLinesF` with sufficient fuel. -/
def streamLines (s : List Nat) : List (List Nat) :=
  streamLinesF (s.length + 1) s

/-! ## Transport state: `LSPSession` -/

/-- State of one pending-request future from `_pending_requests`.  A slot is
created `waiting`; the stdout reader resolves it with the response's
`result`, with a JSON-RPC `error` (`Error.from_lsp`), or with the
`InvalidRequest` error when a response carries neither. -/
inductive Slot where
  | waiting
  | ok (result : Json)
  | errRes (code : Json) (message : Json)
  | invalidRes

/-- `make_notification(method, params)`. -/
def make_notification (method : List Nat) (params : Json) : Json :=
  .obj [(asciiBytes "jsonrpc", .str (asciiBytes "2.0")),
        (asciiBytes "method", .str method),
        (asciiBytes "params", params)]

/-- `make_request(method, request_id, params)`. -/
def make_request (method : List Nat) (rid : Nat) (params : Json) : Json :=
  .obj [(asciiBytes "jsonrpc", .str (asciiBytes "2.0")),
        (asciiBytes "method", .str method),
        (asciiBytes "id", .num (rid : Int)),
        (asciiBytes "params", params)]

/-- The observable state of an `LSPSession` transport: whether the
subprocess and its stdin are available, the `_shutdown` flag, whether the
reader/writer tasks have been cancelled, the `itertools.count(1)` id
generator (`nextId`), the `_pending_requests` futures, every id the
generator has ever produced, the frames written to the server's stdin, and
the `_notification_queue`.  The reader never writes to the server, which is
recorded by `outbound` staying empty. -/
structure Transport where
  processAvailable : Bool := true
  shutdownFlag : Bool := false
  tasksCancelled : Bool := false
  nextId : Nat := 1
  pending : List (Nat × Slot) := []
  allocated : List Nat := []
  written : List Json := []
  queue : List Json := []
  outbound : List Json := []

/-- The transport as `LSPSession.__init__` leaves it. -/
def initTransport : Transport := {}

/-- Outcome of `_send_notification`: either the early-return path that logs
"LSP process not available" and hands back a no-op `asyncio.sleep(0)` task,
or the normal path that schedules a `_send_payload` write task. -/
inductive NotifyOut where
  | warnNoop
  | sent

/-- `LSPSession._send_request` up to the suspension on the response future:
raise `RuntimeError` (the `Except.error`, with the transport untouched —
before any id is allocated or slot registered) when the process or its
stdin is gone; otherwise allocate the next id, register a waiting slot and
write the framed request. -/
def sendRequestStep (t : Transport) (method : List Nat) (params : Json) :
    Transport × Except (List Nat) Nat :=
  if t.processAvailable then
    let rid := t.nextId
    ({ t with
        nextId := rid + 1
        pending := t.pending ++ [(rid, .waiting)]
        allocated := t.allocated ++ [rid]
        written := t.written ++ [make_request method rid params] },
      .ok rid)
  else (t, .error (asciiBytes "LSP process not available"))

/-- `LSPSession._send_notification`: when the process or its stdin is gone,
log a warning and return a do-nothing task (never raising); otherwise
schedule the framed write. -/
def sendNotificationStep (t : Transport) (method : List Nat) (params : Json) :
    Transport × NotifyOut :=
  if t.processAvailable then
    ({ t with written := t.written ++ [make_notification method params] }, .sent)
  else (t, .warnNoop)

/-- `LSPSession.stop`: unless `_shutdown` is already set, send the
`shutdown` request and the `exit` notification (a `RuntimeError` from an
unavailable process propagates, modelled by `none`; `ConnectionResetError`
is swallowed) and set `_shutdown`; then cancel the reader and writer tasks
and wait for process exit.  No statement in `stop` touches
`_pending_requests`. -/
def stopTransport (t : Transport) : Option Transport :=
  if t.shutdownFlag then
    some { t with tasksCancelled := true, processAvailable := false }
  else
    match sendRequestStep t (asciiBytes "shutdown") .null with
    | (_, .error _) => none
    | (t1, .ok _) =>
      let t2 := (sendNotificationStep t1 (asciiBytes "exit") .null).1
      some { t2 with
              shutdownFlag := true
              tasksCancelled := true
              processAvailable := false }

/-! ## Stdout reader dispatch: `LSPSession._read_stdout` -/

/-- Python `key in payload` for a decoded JSON payload: key membership for
objects, element equality for arrays, substring test for strings, and a
`TypeError` (`none`) for the remaining types. -/
def hasKeyJ (p : Json) (k : List Nat) : Option Bool :=
  match p with
  | .obj kvs => some (kvs.any fun kv => kv.1 == k)
  | .arr xs =>
    some (xs.any fun x =>
      match x with
      | .str s => s == k
      | _ => false)
  | .str s => some (hasSeq s k)
  | _ => none

/-- Python `payload[k]` for a string key: object lookup (`json.loads` keeps
the last duplicate, hence the reversed search); `KeyError`/`TypeError`
otherwise (`none`). -/
def getKeyJ (p : Json) (k : List Nat) : Option Json :=
  match p with
  | .obj kvs => (kvs.reverse.find? fun kv => kv.1 == k).map fun kv => kv.2
  | _ => none

/-- Python `==` between the response's `id` value and an integer key of
`_pending_requests` (`dict.get`): numbers compare by value, Python bools
equal their 0/1 value, other hashable values never equal an int key.
`none` models the `TypeError` on an unhashable id (list or dict). -/
def ridMatch (rid : Json) (key : Nat) : Option Bool :=
  match rid with
  | .num n => some (n == (key : Int))
  | .bool b => some ((if b then (1 : Int) else 0) == (key : Int))
  | .str _ => some false
  | .null => some false
  | .arr _ => none
  | .obj _ => none

/-- Look up the pending slot whose key the response id equals. -/
def findPending (pending : List (Nat × Slot)) (rid : Json) : Option (Nat × Slot) :=
  pending.find? fun e => (ridMatch rid e.1).getD false

/-- Replace the slot registered under the matching key. -/
def setPending (pending : List (Nat × Slot)) (rid : Json) (s : Slot) :
    List (Nat × Slot) :=
  pending.map fun e => if (ridMatch rid e.1).getD false then (e.1, s) else e

/-- The message-handling block of `_read_stdout`: a payload with a `method`
is enqueued to the notification queue (even when it also carries an `id` —
the reader sends no acknowledgment and owns no handler registry); otherwise
a payload with an `id` resolves the matching pending slot with its
`result`, its `error` (via `Error.from_lsp`, which raises `KeyError` unless
both `code` and `message` are present), or the `InvalidRequest` error; a
payload with neither is ignored, and an id with no registered future is
dropped.  `none` models an exception propagating to the reader's generic
handler (for example `TypeError` on a non-object payload or resolving an
already-resolved future). -/
def dispatch (st : Transport) (p : Json) : Option Transport :=
  match hasKeyJ p (asciiBytes "method") with
  | none => none
  | some true => some { st with queue := st.queue ++ [p] }
  | some false =>
    match hasKeyJ p (asciiBytes "id") with
    | none => none
    | some false => some st
    | some true =>
      match getKeyJ p (asciiBytes "id") with
      | none => none
      | some rid =>
        match rid with
        | .arr _ => none
        | .obj _ => none
        | _ =>
          match findPending st.pending rid with
          | none => some st
          | some (_, slot) =>
            match hasKeyJ p (asciiBytes "result") with
            | none => none
            | some true =>
              match getKeyJ p (asciiBytes "result") with
              | none => none
              | some res =>
                match slot with
                | .waiting =>
                  some { st with pending := setPending st.pending rid (.ok res) }
                | _ => none
            | some false =>
              match hasKeyJ p (asciiBytes "error") with
              | none => none
              | some true =>
                match getKeyJ p (asciiBytes "error") with
                | none => none
                | some e =>
                  match getKeyJ e (asciiBytes "code"),
                        getKeyJ e (asciiBytes "message") with
                  | some c, some m =>
                    match slot with
                    | .waiting =>
                      some { st with
                              pending := setPending st.pending rid (.errRes c m) }
                    | _ => none
                  | _, _ => none
              | some false =>
                match slot with
                | .waiting =>
                  some { st with pending := setPending st.pending rid .invalidRes }
                | _ => none

/-- How the `_read_stdout` task ends: a clean exit at EOF, or an exception
caught and logged by its generic handler.  In both cases the task simply
returns; pending futures are only ever touched by response dispatch. -/
inductive ReaderExit where
  | eofExit
  | errExit

/-- The full `_read_stdout` loop over an inbound byte stream: extract frames
with `readMessage` and dispatch each payload until EOF or an exception.
Fuel exceeds the stream length in every wrapper call; each decoded frame
consumes at least its header line. -/
def runReaderF : Nat → Transport → List Nat → Transport × ReaderExit
  | 0, st, _ => (st, .eofExit)
  | fuel + 1, st, s =>
    match readMessage s with
    | .eof => (st, .eofExit)
    | .err => (st, .errExit)
    | .msg j rest =>
      match dispatch st j with
      | none => (st, .errExit)
      | some st' => runReaderF fuel st' rest

/-- `runReaderF` with sufficient fuel. -/
def runReader (st : Transport) (s : List Nat) : Transport × ReaderExit :=
  runReaderF (s.length + 1) st s

/-- A sequence of `_send_request` calls on a live transport: each call sends
its method and params and suspends on the response; the trace records the
transport state threaded through the sends. -/
def sendSeq : List (List Nat × Json) → Transport → Transport
  | [], t => t
  | mp :: rest, t => sendSeq rest (sendRequestStep t mp.1 mp.2).1

/-! ## Pyrefly session: `lsp_types/pyrefly/session.py` -/

/-- A value of the options dictionary handed to `PyreflySession.create`
(`PyreflyConfig` is a typed dict; arbitrary keys may appear at runtime).
`OptVal.null` is Python's `None`. -/
inductive OptVal where
  | b (v : Bool)
  | n (v : Int)
  | s (v : String)
  | null
deriving DecidableEq, Repr

/-- Dictionary lookup `options.get(k)` (keys are unique in a Python dict;
the first binding wins). -/
def lookupOpt (opts : List (String × OptVal)) (k : String) : Option OptVal :=
  (opts.find? fun kv => kv.1 == k).map fun kv => kv.2

/-- Python truthiness of `options.get(k)`: absent keys and `None` are falsy,
booleans are themselves, numbers are truthy unless zero, strings unless
empty. -/
def truthy : Option OptVal → Bool
  | none => false
  | some (.b v) => v
  | some (.n v) => v != 0
  | some (.s v) => v ≠ ""
  | some .null => false

/-- Python `str(value)` as used by the f-strings in the config writer. -/
def pyStr : OptVal → String
  | .b true => "True"
  | .b false => "False"
  | .n v => toString v
  | .s v => v
  | .null => "None"

/-- The `pyrefly.toml` contents written by `PyreflySession.create`: only the
four known keys are serialized — `verbose` when truthy, `threads` when
present and not `None`, `color` and `indexing_mode` when present (the
latter emitted as `indexing-mode`). -/
def pyreflyToml (opts : List (String × OptVal)) : String :=
  (if truthy (lookupOpt opts "verbose") then "verbose = true\n" else "")
    ++ (match lookupOpt opts "threads" with
        | some v => if v == OptVal.null then "" else "threads = " ++ pyStr v ++ "\n"
        | none => "")
    ++ (match lookupOpt opts "color" with
        | some v => "color = \"" ++ pyStr v ++ "\"\n"
        | none => "")
    ++ (match lookupOpt opts "indexing_mode" with
        | some v => "indexing-mode = \"" ++ pyStr v ++ "\"\n"
        | none => "")

/-- The option keys the config writer recognizes. -/
def knownKey (k : String) : Bool :=
  k == "verbose" || k == "threads" || k == "color" || k == "indexing_mode"

/-- The options dictionary restricted to the recognized keys. -/
def filterKnown (opts : List (String × OptVal)) : List (String × OptVal) :=
  opts.filter fun kv => knownKey kv.1

/-- A document-synchronization notification sent by the Pyrefly session,
with the version it carries. -/
inductive DocMsg where
  | didOpen (version : Nat) (text : String)
  | didChange (version : Nat) (text : String)
deriving DecidableEq, Repr

/-- The document state a `PyreflySession` owns: `_document_version`
(initialized to 1), `_document_text`, and the ordered list of
`didOpen`/`didChange` notifications it has sent. -/
structure PyreflyDoc where
  version : Nat := 1
  text : String := ""
  sent : List DocMsg := []
deriving DecidableEq, Repr

/-- `PyreflySession._open_document`: record the text and send `didOpen`
carrying the current version (1 for a fresh session). -/
def openDocument (code : String) (d : PyreflyDoc) : PyreflyDoc :=
  { d with text := code, sent := d.sent ++ [.didOpen d.version code] }

/-- The document state after `PyreflySession.create`: a fresh session
(version 1) whose initial code has been opened. -/
def createSession (initialCode : String) : PyreflyDoc :=
  openDocument initialCode {}

/-- `PyreflySession.update_code`: increment the version, record the text,
send `didChange` with a single full-text change carrying the new version,
and return the new version. -/
def updateCode (code : String) (d : PyreflyDoc) : PyreflyDoc × Nat :=
  let v := d.version + 1
  ({ version := v, text := code, sent := d.sent ++ [.didChange v code] }, v)

/-- A sequence of `update_code` calls; returns the final document state and
the versions returned, in call order. -/
def runUpdates : List String → PyreflyDoc → PyreflyDoc × List Nat
  | [], d => (d, [])
  | c :: cs, d =>
    let p := updateCode c d
    let q := runUpdates cs p.1
    (q.1, p.2 :: q.2)

/-- Whether some `didChange` with the given version has been sent. -/
def hasDidChange (l : List DocMsg) (v : Nat) : Bool :=
  l.any fun m =>
    match m with
    | .didChange w _ => w == v
    | _ => false

/-- The version a document-synchronization message carries. -/
def msgVersion : DocMsg → Nat
  | .didOpen v _ => v
  | .didChange v _ => v

/-- A `textDocument/publishDiagnostics` payload as the Pyrefly session sees
it: the version field the server attached (absent for some backends) and
the diagnostics themselves (opaque here). -/
structure DiagPayload where
  version? : Option Nat
  diagnostics : List String
deriving DecidableEq, Repr

/-- Modelled from the spec: `LSPProcess.notify.on_publish_diagnostics`, the
generated one-shot waiter facade of `lsp_types/process.py`, which is not
under `src/`.  Per §4.3/§4.4 of the spec it registers a one-shot waiter for
`textDocument/publishDiagnostics` and completes with the `params` of the
next matching notification, or fails with `Timeout` when none arrives
(modelled by `none` on an exhausted stream).  It performs no version
filtering of its own. -/
def on_publish_diagnostics :
    List DiagPayload → Option DiagPayload × List DiagPayload
  | [] => (none, [])
  | p :: rest => (some p, rest)

/-- `PyreflySession.get_diagnostics`: literally
`return await self._process.notify.on_publish_diagnostics()` — the next
published payload whatever its version, consuming it from the stream; no
per-version cache exists (the source carries a FIXME saying exactly this).
The input list is the stream of incoming `publishDiagnostics` params. -/
def get_diagnostics (incoming : List DiagPayload) :
    Option DiagPayload × List DiagPayload :=
  on_publish_diagnostics incoming

/-! ## Helper lemmas -/

/-- Each `_send_request` allocates exactly the next counter value and keeps
the counter, every prior allocation, and the process flag intact. -/
theorem sendSeq_allocated (calls : List (List Nat × Json)) :
    ∀ t : Transport, t.processAvailable = true →
      (sendSeq calls t).allocated = t.allocated ++ List.range' t.nextId calls.length ∧
      (sendSeq calls t).nextId = t.nextId + calls.length ∧
      (sendSeq calls t).processAvailable = true := by
  induction calls with
  | nil => intro t h; simpa [sendSeq] using h
  | cons mp rest ih =>
    intro t h
    simp only [sendSeq, sendRequestStep, h, if_pos, List.length_cons]
    have step := ih { t with
      processAvailable := true
      nextId := t.nextId + 1
      pending := t.pending ++ [(t.nextId, .waiting)]
      allocated := t.allocated ++ [t.nextId]
      written := t.written ++ [make_request mp.1 t.nextId mp.2] } rfl
    simp only at step
    refine ⟨?_, ?_, step.2.2⟩
    · rw [step.1, List.range'_succ, List.append_assoc]
      rfl
    · rw [step.2.1]
      omega

theorem sendSeq_allocated_init (calls : List (List Nat × Json)) :
    (sendSeq calls initTransport).allocated = List.range' 1 calls.length := by
  simpa [initTransport] using (sendSeq_allocated calls initTransport rfl).1

/-- `readline` never returns more than the stream holds. -/
theorem readLineB_snd_le : ∀ s : List Nat, (readLineB s).2.length ≤ s.length := by
  intro s
  induction s with
  | nil => exact Nat.le_refl 0
  | cons b rest ih =>
    by_cases hb : b = 10
    · simp [readLineB, hb]
    · simp only [readLineB, hb, if_false]
      exact Nat.le_succ_of_le ih

/-- `readline` consumes at least one byte of a nonempty stream. -/
theorem readLineB_snd_lt (b : Nat) (rest : List Nat) :
    (readLineB (b :: rest)).2.length < (b :: rest).length := by
  by_cases hb : b = 10
  · simp [readLineB, hb]
  · simp only [readLineB, hb, if_false, List.length_cons]
    exact Nat.lt_succ_of_le (readLineB_snd_le rest)

/-- Any fuel beyond the stream length yields the same line split. -/
theorem streamLinesF_stable : ∀ (f : Nat) (s : List Nat), s.length < f →
    streamLinesF f s = streamLinesF (s.length + 1) s := by
  intro f
  induction f using Nat.strong_induction_on with
  | _ f ih =>
    intro s h
    cases f with
    | zero => exact absurd h (Nat.not_lt_zero _)
    | succ f' =>
      cases s with
      | nil => cases f' <;> rfl
      | cons b rest =>
        have htail : (readLineB (b :: rest)).2.length < rest.length + 1 := by
          simpa using readLineB_snd_lt b rest
        have hrest : rest.length < f' := by
          simp only [List.length_cons] at h
          omega
        have h1 : (readLineB (b :: rest)).2.length < f' := by omega
        have h2 : (readLineB (b :: rest)).2.length < rest.length + 1 := htail
        show (readLineB (b :: rest)).1 :: streamLinesF f' (readLineB (b :: rest)).2
          = (readLineB (b :: rest)).1 ::
              streamLinesF (rest.length + 1) (readLineB (b :: rest)).2
        rw [ih f' (Nat.lt_succ_self f') _ h1,
          ih (rest.length + 1) (by omega) _ h2]

/-- The first line of a nonempty stream heads its line split. -/
theorem streamLines_cons (b : Nat) (rest : List Nat) :
    streamLines (b :: rest)
      = (readLineB (b :: rest)).1 :: streamLines (readLineB (b :: rest)).2 := by
  show (readLineB (b :: rest)).1 ::
      streamLinesF (rest.length + 1) (readLineB (b :: rest)).2
    = (readLineB (b :: rest)).1 ::
        streamLinesF ((readLineB (b :: rest)).2.length + 1) (readLineB (b :: rest)).2
  rw [streamLinesF_stable (rest.length + 1) _
    (by simpa using readLineB_snd_lt b rest)]

/-- The frame-extraction loop on a stream none of whose lines starts with
the `Content-Length: ` header: every line is skipped (blank or not) and the
loop reaches EOF without producing a message or an error, whatever the
fuel. -/
theorem readMessageF_no_cl :
    ∀ (fuel : Nat) (s : List Nat),
      (∀ l ∈ streamLines s, leadsWith clBytes l = false) →
      readMessageF fuel s = DecodeResult.eof := by
  intro fuel
  induction fuel with
  | zero => intro s _; rfl
  | succ fuel ih =>
    intro s h
    cases s with
    | nil => rfl
    | cons b rest0 =>
      have hsl := streamLines_cons b rest0
      have hline : leadsWith clBytes (readLineB (b :: rest0)).1 = false := by
        apply h
        rw [hsl]
        exact List.mem_cons_self _ _
      have hrest : ∀ l ∈ streamLines (readLineB (b :: rest0)).2,
          leadsWith clBytes l = false := by
        intro l hl
        apply h
        rw [hsl]
        exact List.mem_cons_of_mem _ hl
      rw [readMessageF]
      by_cases hblank : isBlankB (readLineB (b :: rest0)).1
      · simp only [hblank, if_true]
        exact ih _ hrest
      · simp only [hblank, if_false, hline, Bool.false_eq_true]
        exact ih _ hrest

/-- A list starts with itself followed by anything. -/
theorem leadsWith_self_append : ∀ p z : List Nat, leadsWith p (p ++ z) = true := by
  intro p
  induction p with
  | nil => intro z; rfl
  | cons b bs ih =>
    intro z
    rw [List.cons_append, leadsWith, ih z]
    simp

/-- `takeWhile` keeps a list all of whose elements satisfy the predicate. -/
theorem takeWhile_of_all (p : Nat → Bool) :
    ∀ l : List Nat, (∀ b ∈ l, p b = true) → l.takeWhile p = l := by
  intro l
  induction l with
  | nil => intro _; rfl
  | cons b bs ih =>
    intro h
    rw [List.takeWhile_cons_of_pos (h b (List.mem_cons_self _ _)),
      ih fun x hx => h x (List.mem_cons_of_mem _ hx)]

/-- `readline` on a stream whose first LF closes the prefix `l`. -/
theorem readLineB_no_lf : ∀ (l r : List Nat), (10 : Nat) ∉ l →
    readLineB (l ++ 10 :: r) = (l ++ [10], r) := by
  intro l
  induction l with
  | nil => intro r _; simp [readLineB]
  | cons b bs ih =>
    intro r h
    have hb : b ≠ 10 := fun hb => h (hb ▸ List.mem_cons_self _ _)
    rw [List.cons_append, readLineB]
    simp only [hb, if_false]
    rw [ih r fun hx => h (List.mem_cons_of_mem _ hx)]
    rfl

/-- Stripping ignores a leading whitespace byte. -/
theorem stripB_cons_ws (b : Nat) (x : List Nat) (hb : isPyWs b = true) :
    stripB (b :: x) = stripB x := by
  unfold stripB
  rw [List.dropWhile_cons_of_pos hb]

/-- Stripping ignores a trailing whitespace byte. -/
theorem stripB_concat_ws (x : List Nat) (b : Nat) (hb : isPyWs b = true) :
    stripB (x ++ [b]) = stripB x := by
  unfold stripB
  rw [List.dropWhile_append]
  rcases hx : (x.dropWhile isPyWs).isEmpty with _ | _
  · simp only [hx, Bool.false_eq_true, if_false, List.reverse_append]
    simp only [List.reverse_cons, List.reverse_nil, List.nil_append,
      List.singleton_append]
    rw [List.dropWhile_cons_of_pos hb]
  · simp only [hx, if_true]
    rw [List.isEmpty_iff.mp hx]
    simp [List.dropWhile_cons_of_pos hb]

/-- `int(value)` is insensitive to the space after the colon and the CRLF
closing the header line, exactly as Python's strip makes it. -/
theorem parsePyInt_pad (v : List Nat) :
    parsePyInt (32 :: (v ++ [13, 10])) = parsePyInt v := by
  have hs : stripB (32 :: (v ++ [13, 10])) = stripB v := by
    rw [stripB_cons_ws 32 _ rfl,
      show v ++ [13, 10] = (v ++ [13]) ++ [10] by simp,
      stripB_concat_ws _ 10 rfl, stripB_concat_ws _ 13 rfl]
  unfold parsePyInt
  rw [hs]

/-- `line.split(b":")[1]` on a `Content-Length` header line whose value
holds no colon: the space after the colon, the value and the CRLF. -/
theorem afterFirstColon_cl (v : List Nat) (h58 : (58 : Nat) ∉ v) :
    afterFirstColon (clBytes ++ (v ++ [13, 10])) = 32 :: (v ++ [13, 10]) := by
  unfold afterFirstColon
  rw [show List.dropWhile (fun b => decide (b ≠ 58)) (clBytes ++ (v ++ [13, 10]))
      = 58 :: 32 :: (v ++ [13, 10]) from rfl]
  rw [List.drop_succ_cons, List.drop_zero,
    List.takeWhile_cons_of_pos (by decide)]
  rw [takeWhile_of_all _ (v ++ [13, 10]) ?_]
  intro b hb
  simp only [List.mem_append, List.mem_cons, List.not_mem_nil, or_false] at hb
  rcases hb with hv | h13 | h10
  · have hne : b ≠ 58 := fun hbe => h58 (hbe ▸ hv)
    simpa using hne
  · subst h13
    decide
  · subst h10
    decide

/-- One pass of the frame-extraction loop over a stream that begins with a
`Content-Length` header line (value free of LF and colon bytes): parse the
value, then skip (length 0), fail (`int` error or negative length or short
or invalid body) or decode, exactly as `_read_stdout` does. -/
theorem readMessageF_step_cl (fuel : Nat) (v r : List Nat)
    (h10 : (10 : Nat) ∉ v) (h58 : (58 : Nat) ∉ v) :
    readMessageF (fuel + 1) (clBytes ++ v ++ [13, 10] ++ r) =
      (match parsePyInt v with
       | none => DecodeResult.err
       | some cl =>
         if cl = 0 then readMessageF fuel r
         else
           if cl < 0 then DecodeResult.err
           else if (skipHeaders r).length < cl.toNat then DecodeResult.err
           else
             match loads (stripB ((skipHeaders r).take cl.toNat)) with
             | some j => DecodeResult.msg j ((skipHeaders r).drop cl.toNat)
             | none => DecodeResult.err) := by
  have hnl : (10 : Nat) ∉ clBytes ++ v ++ [13] := by
    simp only [List.mem_append, List.mem_cons, List.not_mem_nil, or_false]
    rintro ((hcl | hv) | h13)
    · revert hcl
      decide
    · exact h10 hv
    · cases h13
  have hline : readLineB (clBytes ++ v ++ [13, 10] ++ r)
      = (clBytes ++ (v ++ [13, 10]), r) := by
    rw [show clBytes ++ v ++ [13, 10] ++ r = (clBytes ++ v ++ [13]) ++ 10 :: r by
        simp, readLineB_no_lf _ _ hnl]
    simp
  have hcons : clBytes ++ v ++ [13, 10] ++ r
      = 67 :: (asciiBytes "ontent-Length: " ++ v ++ [13, 10] ++ r) := rfl
  rw [hcons, readMessageF, ← hcons, hline]
  have hbl : isBlankB (clBytes ++ (v ++ [13, 10])) = false := rfl
  have hlw : leadsWith clBytes (clBytes ++ (v ++ [13, 10])) = true :=
    leadsWith_self_append clBytes _
  simp only [hbl, Bool.false_eq_true, if_false, hlw, if_true,
    afterFirstColon_cl v h58]
  rw [parsePyInt_pad v]

/-- The header-skipping loop stops at an immediately following blank line. -/
theorem skipHeaders_blank (body : List Nat) :
    skipHeaders (13 :: 10 :: body) = body := rfl

/-- A frame with a non-numeric `Content-Length` value makes decoding fail
(`int` raises `ValueError`). -/
theorem readMessage_cl_nonnumeric (v r : List Nat)
    (h10 : (10 : Nat) ∉ v) (h58 : (58 : Nat) ∉ v) (hint : parsePyInt v = none) :
    readMessage (clBytes ++ v ++ [13, 10] ++ r) = DecodeResult.err := by
  unfold readMessage
  have hstep := readMessageF_step_cl
    ((clBytes ++ v ++ [13, 10] ++ r).length) v r h10 h58
  rw [hint] at hstep
  exact hstep

/-- A frame with a negative `Content-Length` value makes decoding fail
(`readexactly` raises `ValueError`). -/
theorem readMessage_cl_negative (v r : List Nat) (cl : Int)
    (h10 : (10 : Nat) ∉ v) (h58 : (58 : Nat) ∉ v)
    (hint : parsePyInt v = some cl) (hneg : cl < 0) :
    readMessage (clBytes ++ v ++ [13, 10] ++ r) = DecodeResult.err := by
  unfold readMessage
  have hstep := readMessageF_step_cl
    ((clBytes ++ v ++ [13, 10] ++ r).length) v r h10 h58
  rw [hint] at hstep
  have h0 : ¬cl = 0 := by omega
  exact hstep.trans (by simp [h0, hneg])

/-- A frame whose declared body is not valid JSON makes decoding fail
(`json.loads` raises). -/
theorem readMessage_cl_badjson (d body : List Nat)
    (h10 : (10 : Nat) ∉ d) (h58 : (58 : Nat) ∉ d)
    (hint : parsePyInt d = some (body.length : Int)) (hne : body.length ≠ 0)
    (hbad : loads (stripB body) = none) :
    readMessage (clBytes ++ d ++ [13, 10] ++ 13 :: 10 :: body)
      = DecodeResult.err := by
  unfold readMessage
  have hstep := readMessageF_step_cl
      ((clBytes ++ d ++ [13, 10] ++ 13 :: 10 :: body).length) d
      (13 :: 10 :: body) h10 h58
  rw [hint] at hstep
  have h0 : ¬(body.length : Int) = 0 := by simpa using hne
  have hneg : ¬(body.length : Int) < 0 := by omega
  refine hstep.trans ?_
  simp [h0, hneg, skipHeaders_blank, hbad]

/-- A stream whose decoding fails makes the reader exit with the state it
had when the exception was raised: dispatch never ran. -/
theorem runReader_err (st : Transport) (s : List Nat)
    (h : readMessage s = DecodeResult.err) :
    runReader st s = (st, ReaderExit.errExit) := by
  unfold runReader
  rw [runReaderF, h]

/-! ## Claim theorems -/

/-- C10 (confirmed): when the subprocess (or its stdin) is unavailable,
`_send_notification` never raises — it logs a warning and returns a no-op
task and the transport state is untouched — whereas `_send_request` raises
`RuntimeError` with the transport untouched, hence before any id is
allocated or any pending slot is registered. -/
theorem unavailableProcessAsymmetry (t : Transport) (method : List Nat)
    (params : Json) (h : t.processAvailable = false) :
    sendNotificationStep t method params = (t, .warnNoop) ∧
    sendRequestStep t method params =
      (t, .error (asciiBytes "LSP process not available")) := by
  simp [sendNotificationStep, sendRequestStep, h]

/-- Witness for C10 at a concrete dead transport. -/
theorem unavailableProcessAsymmetryWitness :
    sendNotificationStep { processAvailable := false } (asciiBytes "exit") .null
        = ({ processAvailable := false }, .warnNoop) ∧
    sendRequestStep { processAvailable := false } (asciiBytes "shutdown") .null
        = ({ processAvailable := false },
            .error (asciiBytes "LSP process not available")) :=
  unavailableProcessAsymmetry { processAvailable := false } (asciiBytes "shutdown")
    .null rfl
    |>.imp (fun _ => rfl) id

/-- C5 (confirmed): within one transport lifetime the ids allocated by any
sequence of `_send_request` calls are exactly `1, 2, …, n` — the
`itertools.count(1)` generator starting at 1 — and are pairwise distinct, so
no two pending slots ever share an id. -/
theorem requestIdsUniquePerLifetime (calls : List (List Nat × Json)) :
    (sendSeq calls initTransport).allocated = List.range' 1 calls.length ∧
    (sendSeq calls initTransport).allocated.Nodup := by
  refine ⟨sendSeq_allocated_init calls, ?_⟩
  rw [sendSeq_allocated_init calls]
  exact List.nodup_range' 1 calls.length

/-- C2 counterexample: at a transport with one outstanding pending slot,
`stop()` leaves that slot `waiting` (it is not completed with `Cancelled` —
no such completion exists in the code), and a stdout reader hitting
immediate EOF exits leaving the slot `waiting` as well. -/
theorem stopLeavesPendingSlotWaiting :
    (Option.map Transport.pending
        (stopTransport { pending := [(1, Slot.waiting)], nextId := 2 }))
      = some [(1, Slot.waiting), (2, Slot.waiting)] ∧
    (runReader { pending := [(1, Slot.waiting)] } []).1.pending
      = [(1, Slot.waiting)] ∧
    (runReader { pending := [(1, Slot.waiting)] } []).2 = ReaderExit.eofExit :=
  ⟨rfl, rfl, rfl⟩

/-- C2 (corrected): `stop()` cancels the reader tasks but never completes
pending slots — every slot present before `stop()` is still present,
unresolved, afterwards (the `shutdown` request itself may add one more) —
and a stdout reader that encounters EOF simply exits, leaving the transport
state exactly as it was. -/
theorem stopAndEofPreservePendingSlots (t t' : Transport)
    (h : stopTransport t = some t') :
    (∀ e ∈ t.pending, e ∈ t'.pending) ∧
    ∀ st : Transport, runReader st [] = (st, ReaderExit.eofExit) := by
  constructor
  · intro e he
    unfold stopTransport at h
    by_cases hs : t.shutdownFlag
    · simp [hs] at h
      rw [← h]
      exact he
    · simp [hs, sendRequestStep, sendNotificationStep] at h
      by_cases hp : t.processAvailable
      · simp [hp] at h
        rw [← h]
        exact List.mem_append_left _ he
      · simp [hp] at h
  · intro st
    rfl

/-- Witness for C2's amended statement at the concrete transport of the
counterexample's shape (distinct state so no theorem is shared). -/
theorem stopAndEofPreservePendingSlotsWitness :
    (∀ e ∈ ({ pending := [(7, Slot.waiting)], nextId := 9 } : Transport).pending,
        e ∈ ({ processAvailable := false, shutdownFlag := true,
               tasksCancelled := true, nextId := 10,
               pending := [(7, Slot.waiting), (9, Slot.waiting)],
               allocated := [9],
               written := [make_request (asciiBytes "shutdown") 9 .null,
                           make_notification (asciiBytes "exit") .null] } :
                 Transport).pending) ∧
    ∀ st : Transport, runReader st [] = (st, ReaderExit.eofExit) :=
  stopAndEofPreservePendingSlots
    { pending := [(7, Slot.waiting)], nextId := 9 } _ rfl

/-- C3 counterexample: an inbound stream with no `Content-Length` header at
all is consumed silently to EOF — decoding does not fail at all (there is no
`ProtocolError` in the code), and a pending slot survives untouched rather
than being completed with `Cancelled`. -/
theorem missingContentLengthSkippedSilently :
    runReader { pending := [(1, Slot.waiting)] } (asciiBytes "Hello\r\nWorld\r\n")
      = ({ pending := [(1, Slot.waiting)] }, ReaderExit.eofExit) := rfl

/-- C3 (corrected): universal over frames and pending maps — for every
transport state and every inbound stream opening with a frame whose
`Content-Length` value is non-numeric, or negative, or whose declared body
is not valid JSON, decoding fails with an ordinary exception (`ValueError`
from `int` or `readexactly`, or a JSON decode error) that the reader's
generic handler catches and logs before the reader task exits; the reader
returns every pending slot exactly as it was — no slot is completed with
`Cancelled` and no `ProtocolError` type exists.  (A frame with an absent
`Content-Length` header is skipped silently instead: see the
counterexample.) -/
theorem malformedFrameLeavesPendingUntouched :
    (∀ (st : Transport) (s : List Nat), readMessage s = DecodeResult.err →
      runReader st s = (st, ReaderExit.errExit)) ∧
    (∀ v r : List Nat, (10 : Nat) ∉ v → (58 : Nat) ∉ v →
      parsePyInt v = none →
      readMessage (clBytes ++ v ++ [13, 10] ++ r) = DecodeResult.err) ∧
    (∀ (v r : List Nat) (cl : Int), (10 : Nat) ∉ v → (58 : Nat) ∉ v →
      parsePyInt v = some cl → cl < 0 →
      readMessage (clBytes ++ v ++ [13, 10] ++ r) = DecodeResult.err) ∧
    (∀ d body : List Nat, (10 : Nat) ∉ d → (58 : Nat) ∉ d →
      parsePyInt d = some (body.length : Int) → body.length ≠ 0 →
      loads (stripB body) = none →
      readMessage (clBytes ++ d ++ [13, 10] ++ 13 :: 10 :: body)
        = DecodeResult.err) :=
  ⟨runReader_err, readMessage_cl_nonnumeric, readMessage_cl_negative,
    readMessage_cl_badjson⟩

/-- Witness for C3's amended statement: the three malformed-frame families
at concrete frames, the first also run through the reader against a
concrete pending map. -/
theorem malformedFrameLeavesPendingUntouchedWitness :
    runReader { pending := [(4, Slot.waiting)] }
        (clBytes ++ asciiBytes "abc" ++ [13, 10] ++ [13, 10])
      = ({ pending := [(4, Slot.waiting)] }, ReaderExit.errExit) ∧
    readMessage (clBytes ++ asciiBytes "-5" ++ [13, 10] ++ [13, 10])
      = DecodeResult.err ∧
    readMessage
        (clBytes ++ asciiBytes "3" ++ [13, 10] ++ 13 :: 10 :: asciiBytes "abc")
      = DecodeResult.err := by
  refine ⟨?_, ?_, ?_⟩
  · exact malformedFrameLeavesPendingUntouched.1 _ _
      (malformedFrameLeavesPendingUntouched.2.1 (asciiBytes "abc") [13, 10]
        (by decide) (by decide) (by decide))
  · exact malformedFrameLeavesPendingUntouched.2.2.1 (asciiBytes "-5") [13, 10]
      (-5) (by decide) (by decide) (by decide) (by decide)
  · exact malformedFrameLeavesPendingUntouched.2.2.2 (asciiBytes "3")
      (asciiBytes "abc") (by decide) (by decide) (by decide) (by decide)
      (by rfl)

/-- C7 counterexample: dispatching an inbound message that carries both a
`method` and an `id` (a server-to-client request) enqueues it on the
notification queue and writes nothing back — the `{id, result: null}`
acknowledgment the claim requires is never sent. -/
theorem serverRequestNotAcknowledged :
    dispatch initTransport
        (.obj [(asciiBytes "method", .str (asciiBytes "workspace/configuration")),
               (asciiBytes "id", .num 1)])
      = some { initTransport with
                queue := [.obj [(asciiBytes "method",
                                  .str (asciiBytes "workspace/configuration")),
                                (asciiBytes "id", .num 1)]] } ∧
    (Option.map Transport.outbound
        (dispatch initTransport
          (.obj [(asciiBytes "method", .str (asciiBytes "workspace/configuration")),
                 (asciiBytes "id", .num 1)])))
      = some [] :=
  ⟨rfl, rfl⟩

/-- C7 (corrected): any inbound payload that contains a `method` key — with
or without an `id` — is routed to the notification queue; the reader owns no
handler registry and never writes an acknowledgment (or anything else) back
to the server. -/
theorem methodMessagesEnqueuedNoReply (st : Transport) (p : Json)
    (h : hasKeyJ p (asciiBytes "method") = some true) :
    dispatch st p = some { st with queue := st.queue ++ [p] } := by
  simp [dispatch, h]

/-- Witness for C7's amended statement at a concrete server-to-client
request payload. -/
theorem methodMessagesEnqueuedNoReplyWitness :
    dispatch initTransport
        (.obj [(asciiBytes "method", .str (asciiBytes "client/registerCapability")),
               (asciiBytes "id", .num 3)])
      = some { initTransport with
                queue := initTransport.queue ++
                  [.obj [(asciiBytes "method",
                           .str (asciiBytes "client/registerCapability")),
                         (asciiBytes "id", .num 3)]] } :=
  methodMessagesEnqueuedNoReply initTransport _ rfl

/-- C1 (code bug, acknowledged by the source FIXME): after `update_code`
returns version 2, a stale `publishDiagnostics` payload carrying version 1
that is next on the stream is returned by `get_diagnostics` as-is — no
version check, no `Timeout`, no staleness logging. -/
theorem staleDiagnosticsReturned :
    (updateCode "fixed" (createSession "buggy")).2 = 2 ∧
    (get_diagnostics [⟨some 1, ["stale"]⟩]).1 = some ⟨some 1, ["stale"]⟩ ∧
    (⟨some 1, ["stale"]⟩ : DiagPayload).version? ≠ some 2 :=
  ⟨rfl, rfl, by decide⟩

/-- C8 (code bug, acknowledged by the source FIXME): two `get_diagnostics`
calls at the same document version are not idempotent — the second call
re-awaits the next notification, returning a different payload when one
arrives and hanging (`Timeout`) when none does; nothing is memoized. -/
theorem repeatedDiagnosticsCallsDiffer :
    (get_diagnostics [⟨some 2, ["e1"]⟩, ⟨some 2, []⟩]).1 = some ⟨some 2, ["e1"]⟩ ∧
    (get_diagnostics (get_diagnostics [⟨some 2, ["e1"]⟩, ⟨some 2, []⟩]).2).1
      = some ⟨some 2, []⟩ ∧
    (⟨some 2, ["e1"]⟩ : DiagPayload) ≠ ⟨some 2, []⟩ ∧
    (get_diagnostics (get_diagnostics [⟨some 2, ["e1"]⟩]).2).1 = none :=
  ⟨rfl, rfl, by decide, rfl⟩

/-- C4 counterexample: after `create` and a single `update_code`, the
returned version is 2 and a `didChange` with version 2 has been sent, yet no
`didChange` with version 1 was ever sent (version 1 is carried by `didOpen`),
so "preceded by all `didChange`s for versions `1..v-1`" fails at `v = 2`. -/
theorem noDidChangeForVersionOne :
    (updateCode "b" (createSession "a")).2 = 2 ∧
    (updateCode "b" (createSession "a")).1.sent
      = [DocMsg.didOpen 1 "a", DocMsg.didChange 2 "b"] ∧
    hasDidChange (updateCode "b" (createSession "a")).1.sent 2 = true ∧
    hasDidChange (updateCode "b" (createSession "a")).1.sent 1 = false :=
  ⟨rfl, by decide, rfl, rfl⟩

/-- Closed form of a run of `update_code` calls from an arbitrary document
state: the returned versions count up from `version + 1` and the sent
messages extend the log with `didChange` notifications carrying exactly
those versions. -/
theorem runUpdates_spec (codes : List String) :
    ∀ d : PyreflyDoc,
      (runUpdates codes d).2 = List.range' (d.version + 1) codes.length ∧
      (runUpdates codes d).1.sent = d.sent ++
        List.zipWith DocMsg.didChange
          (List.range' (d.version + 1) codes.length) codes ∧
      (runUpdates codes d).1.version = d.version + codes.length := by
  induction codes with
  | nil => intro d; simp [runUpdates]
  | cons c cs ih =>
    intro d
    have step := ih { version := d.version + 1, text := c,
                      sent := d.sent ++ [.didChange (d.version + 1) c] }
    simp only [runUpdates, updateCode] at step ⊢
    refine ⟨?_, ?_, ?_⟩
    · rw [List.length_cons, List.range'_succ, step.1]
    · rw [step.2.1, List.length_cons, List.range'_succ, List.zipWith_cons_cons,
        List.append_assoc]
      rfl
    · rw [step.2.2, List.length_cons]
      omega

/-- Mapping each `didChange` back to its version recovers the version list. -/
theorem map_msgVersion_zipWith (codes : List String) :
    ∀ a : Nat, codes.length = (List.range' a codes.length).length →
      (List.zipWith DocMsg.didChange (List.range' a codes.length) codes).map
          msgVersion = List.range' a codes.length := by
  induction codes with
  | nil => intro a _; simp
  | cons c cs ih =>
    intro a _
    rw [List.length_cons, List.range'_succ, List.zipWith_cons_cons, List.map_cons,
      ih (a + 1) (by simp)]
    rfl

/-- C4 (corrected): the document version starts at 1 carried by `didOpen`;
each `update_code` increments it by exactly one and returns the new value,
so a run of `n` updates returns exactly `2, 3, …, n + 1` (strictly
increasing); the full message log carries versions `1, 2, …, n + 1` with the
single `didOpen` carrying version 1 — every `didChange` with version `v` is
preceded by `didOpen` with version 1 and by the `didChange`s for versions
`2..v-1` (there is no `didChange` for version 1, contrary to the claim's
`1..v-1`). -/
theorem versionMonotonicityAmended (init : String) (codes : List String) :
    (runUpdates codes (createSession init)).2 = List.range' 2 codes.length ∧
    (runUpdates codes (createSession init)).1.sent =
      DocMsg.didOpen 1 init ::
        List.zipWith DocMsg.didChange (List.range' 2 codes.length) codes ∧
    (runUpdates codes (createSession init)).2.Pairwise (· < ·) ∧
    (runUpdates codes (createSession init)).1.sent.map msgVersion =
      List.range' 1 (codes.length + 1) := by
  have h := runUpdates_spec codes (createSession init)
  have hv : (createSession init).version = 1 := rfl
  have hs : (createSession init).sent = [DocMsg.didOpen 1 init] := rfl
  have h2 : (1 : Nat) + 1 = 2 := rfl
  rw [hv, hs, h2] at h
  refine ⟨h.1, ?_, ?_, ?_⟩
  · rw [h.2.1]
    rfl
  · rw [h.1]
    exact List.pairwise_lt_range' 2 codes.length
  · rw [h.2.1, List.singleton_append, List.map_cons,
      map_msgVersion_zipWith codes 2 (by simp), List.range'_succ]
    rfl

/-- C6 counterexample: a syntactically valid frame that omits the optional
`Content-Type` header decodes to the payload `{}`, but re-encoding that
payload yields different bytes (the encoder always emits the fixed
`Content-Type` header), so `encode(decode(bytes)) ≠ bytes`. -/
theorem frameRoundTripFails :
    readMessage (asciiBytes "Content-Length: 2\r\n\r\n\x7b\x7d")
      = DecodeResult.msg (Json.obj []) [] ∧
    encodeFrame (Json.obj []) ≠ asciiBytes "Content-Length: 2\r\n\r\n\x7b\x7d" :=
  ⟨rfl, by decide⟩

/-- C6 (corrected): the decoder yields no message — and no error — from any
byte sequence none of whose lines starts with a `Content-Length` header: the
reader silently consumes it to EOF rather than rejecting it with an error;
and `encode(decode(bytes)) = bytes` fails for syntactically valid frames
(see the counterexample), because the encoder always emits exactly the
`Content-Length` and fixed `Content-Type` header pair and re-serializes the
body compactly. -/
theorem decodeWithoutContentLengthYieldsNoMessage (s : List Nat) (fuel : Nat)
    (h : ∀ l ∈ streamLines s, leadsWith clBytes l = false) :
    readMessageF fuel s = DecodeResult.eof :=
  readMessageF_no_cl fuel s h

/-- Witness for C6's amended statement at a concrete stream that even
contains `Content-Length: ` inside a line — no line starts with it, so no
message is decoded. -/
theorem decodeWithoutContentLengthWitness :
    readMessageF 30 (asciiBytes "x Content-Length: 3\r\n\r\nabc\r\n")
      = DecodeResult.eof :=
  decodeWithoutContentLengthYieldsNoMessage
    (asciiBytes "x Content-Length: 3\r\n\r\nabc\r\n") 30 (by decide)

/-- C9 counterexample: an option key outside the four the writer recognizes
is dropped entirely — the written `pyrefly.toml` is empty, so the config does
not contain every option key. -/
theorem unknownOptionKeyDropped :
    pyreflyToml [("extra_option", OptVal.s "x")] = "" := by decide

/-- Dropping the unrecognized keys does not change any lookup the config
writer performs. -/
theorem lookupOpt_filterKnown (k : String) (hk : knownKey k = true) :
    ∀ opts : List (String × OptVal),
      lookupOpt (filterKnown opts) k = lookupOpt opts k := by
  intro opts
  induction opts with
  | nil => rfl
  | cons kv rest ih =>
    rcases hb : kv.1 == k with _ | _
    · by_cases hkv : knownKey kv.1
      · simp only [filterKnown, List.filter_cons, hkv, if_true, lookupOpt,
          List.find?_cons, hb] at ih ⊢
        exact ih
      · simp only [filterKnown, List.filter_cons, hkv, if_false, Bool.false_eq_true,
          lookupOpt, List.find?_cons, hb] at ih ⊢
        exact ih
    · have hkv : knownKey kv.1 = true := by rw [beq_iff_eq.mp hb]; exact hk
      simp only [filterKnown, List.filter_cons, hkv, if_true, lookupOpt,
        List.find?_cons, hb]

/-- C9 (corrected): the config writer serializes only the four keys it
recognizes — `verbose` (when truthy), `threads` (when present and not
`None`), `color`, and `indexing_mode` (written hyphen-separated as
`indexing-mode`) — so the written TOML is unchanged when every other key is
dropped; unknown keys and nested tables do not pass through. -/
theorem tomlUsesOnlyKnownKeys (opts : List (String × OptVal)) :
    pyreflyToml opts = pyreflyToml (filterKnown opts) ∧
    pyreflyToml [("verbose", OptVal.b true), ("threads", OptVal.n 4),
                 ("color", OptVal.s "auto"), ("indexing_mode", OptVal.s "lazy")]
      = "verbose = true\nthreads = 4\ncolor = \"auto\"\nindexing-mode = \"lazy\"\n" := by
  constructor
  · rw [pyreflyToml, pyreflyToml,
      lookupOpt_filterKnown "verbose" rfl opts,
      lookupOpt_filterKnown "threads" rfl opts,
      lookupOpt_filterKnown "color" rfl opts,
      lookupOpt_filterKnown "indexing_mode" rfl opts]
  · decide

end LspModel
